import Mathlib

/-!
# Verification of the tar permission-normalization scripts

Shallow embedding of the two Python command-line utilities of this
repository:

* `scripts/create_tar.py` — the archive builder: walks a source directory
  and writes a fresh tar+gzip archive with permissions assigned by a
  path-classification rule.
* `scripts/fix_tar_execs.py` — the archive fixer: rewrites an existing
  archive entry-by-entry into a temporary archive with normalized modes,
  then replaces the original.

A tar archive is modelled as a list of entries; an entry carries the
fields of a Python `tarfile.TarInfo` that the scripts read or write
(name, type, mode, uid, gid, uname, gname, mtime, size, linkname)
together with the member's data bytes.  `TarFile.addfile(tarinfo, f)`
writes `tarinfo.size` bytes of `f` after the header, which the model
renders as `content.take size`.

Python strings are sequences of characters; `s.startswith(p)` and the
slice `s[2:]` are embedded as the character-list operations
`strStartsWith` and `strDrop` (Lean's own `String.startsWith` is
byte-position based and is not used).
-/

/-- Python `s.startswith(p)`: `p` is a prefix of the character sequence
of `s`. -/
def strStartsWith (s p : String) : Bool :=
  p.data.isPrefixOf s.data

/-- Python slice `s[n:]`: drop the first `n` characters of `s`. -/
def strDrop (s : String) (n : Nat) : String :=
  String.mk (s.data.drop n)

/-- The three classes of entry the fixer distinguishes:
`member.isdir()`, `member.isreg()`, and everything else
(symlinks, hard links, devices, fifos, ...). -/
inductive TypeFlag where
  | reg
  | dir
  | other
deriving DecidableEq, Repr

/-- A tar archive member: the `tarfile.TarInfo` fields used by the
scripts, plus the member's data bytes. -/
structure TarEntry where
  name : String
  type : TypeFlag
  mode : Nat
  uid : Nat := 0
  gid : Nat := 0
  uname : String := ""
  gname : String := ""
  mtime : Nat := 0
  size : Nat := 0
  linkname : String := ""
  content : List Nat := []
deriving DecidableEq, Repr

instance : Inhabited TarEntry :=
  ⟨{ name := "", type := TypeFlag.reg, mode := 0 }⟩

namespace FixTarExecs

/-- `normalize` from fix_tar_execs.py: remove a leading "./" if present. -/
def normalize (name : String) : String :=
  if strStartsWith name "./" then strDrop name 2 else name

/-- One iteration of the fixer's member loop (fix_tar_execs.py, body of
`fix_tar`): build the replacement descriptor
`m = tarfile.TarInfo(name=member.name)` (unset fields keep the `TarInfo`
defaults: mode 0o644, size 0, empty linkname), copy
uid/gid/uname/gname/mtime/type, branch on the member's type to set the
mode, and write the entry; `dst.addfile(m, f)` emits `m.size` bytes of
the member's stream after the header. -/
def fixEntry (member : TarEntry) : TarEntry :=
  let name := normalize member.name
  let m : TarEntry :=
    { name := member.name, type := member.type,
      mode := 0o644, size := 0, linkname := "",
      uid := member.uid, gid := member.gid,
      uname := member.uname, gname := member.gname,
      mtime := member.mtime, content := [] }
  if member.type = TypeFlag.dir then
    -- directories -> 0755, no data follows the header
    { m with mode := 0o755 }
  else if member.type = TypeFlag.reg then
    -- executables under go/bin and go/pkg/tool -> 0755, else 0644
    { m with
      mode :=
        if strStartsWith name "go/bin/" || strStartsWith name "go/pkg/tool/" then
          0o755
        else
          0o644,
      content := member.content.take m.size }
  else
    -- other types preserve the mode if possible:
    -- getattr(member, "mode", 0o644) or 0o644
    { m with
      mode := if member.mode = 0 then 0o644 else member.mode,
      content := member.content.take m.size }

/-- The fixer's rewrite of a whole member list: the entries appended to
the destination archive by the loop in `fix_tar`, in order. -/
def fix_tar (members : List TarEntry) : List TarEntry :=
  members.foldl (fun dst member => dst ++ [fixEntry member]) []

/-- The filesystem state `fix_tar` touches: the archive at `tar_path`
(as its member list) and the temporary file, if it currently exists
(as the member list written to it so far). -/
structure FixFS where
  original : List TarEntry
  tmp : Option (List TarEntry)
deriving DecidableEq, Repr

/-- One `dst.addfile` call: append an entry to the temporary archive. -/
def writeTmp (fs : FixFS) (e : TarEntry) : FixFS :=
  { fs with tmp := some ((fs.tmp.getD []) ++ [e]) }

/-- The fixer's member loop run over a list of source members, writing
each rewritten entry to the temporary archive. -/
def fixLoop (fs : FixFS) (members : List TarEntry) : FixFS :=
  members.foldl (fun s member => writeTmp s (fixEntry member)) fs

/-- The whole of `fix_tar(tar_path)` at the file level.  `tempfile.mkstemp`
creates an empty temporary file; the `try` block rewrites the members of
the original archive into it; `shutil.move` then replaces the original
with the temporary file; the `finally` block removes the temporary file
when it still exists.  An exception anywhere in the `try` block is
modelled by `failAfter = some k`: the loop has written `k` rewritten
entries to the temporary file when the exception is raised, the original
is never written, and control passes to `finally`.  `failAfter = none`
is the exception-free run.  Returns the final filesystem state and
whether `fix_tar` returned normally. -/
def fix_tar_run (fs0 : FixFS) (failAfter : Option Nat) : FixFS × Bool :=
  let fs1 : FixFS := { fs0 with tmp := some [] }
  match failAfter with
  | some k =>
      let fs2 := fixLoop fs1 (fs0.original.take k)
      ({ fs2 with tmp := none }, false)
  | none =>
      let fs2 := fixLoop fs1 fs0.original
      let fs3 : FixFS := { original := fs2.tmp.getD [], tmp := none }
      (fs3, true)

end FixTarExecs

namespace CreateTar

/-- One object found by the directory walk in create_tar.py: its path
relative to the source root (as the list of path segments Python's
`rel_path.parts` yields), whether it is a directory, and the metadata
`tar.gettarinfo` reads from the filesystem. -/
structure SrcItem where
  parts : List String
  isDir : Bool
  mode : Nat
  uid : Nat := 0
  gid : Nat := 0
  uname : String := ""
  gname : String := ""
  mtime : Nat := 0
  content : List Nat := []
deriving DecidableEq, Repr

/-- `str(Path(base_name) / rel_path)`: the archive name of an item. -/
def arcname (base : String) (parts : List String) : String :=
  base ++ "/" ++ String.intercalate "/" parts

/-- The loop body of `create_tar_with_permissions` for one walked item
(create_tar.py): `tar.gettarinfo` copies the filesystem metadata, then
the mode is overwritten — directories always get 0o755; a regular file
gets 0o755 when `len(parts) >= 2 and parts[0] == "bin"`, or
`len(parts) >= 3 and parts[0] == "pkg" and parts[1] == "tool"`, or
`len(parts) >= 1 and parts[0] == "tools"`, and 0o644 otherwise; the
file's bytes are then added in full. -/
def buildEntry (base : String) (it : SrcItem) : TarEntry :=
  if it.isDir then
    { name := arcname base it.parts, type := TypeFlag.dir, mode := 0o755,
      uid := it.uid, gid := it.gid, uname := it.uname, gname := it.gname,
      mtime := it.mtime, size := 0, linkname := "", content := [] }
  else
    let parts := it.parts
    let is_executable : Bool :=
      if 2 ≤ parts.length ∧ parts.head? = some "bin" then
        true
      else if 3 ≤ parts.length ∧ parts.head? = some "pkg" ∧ parts[1]? = some "tool" then
        true
      else if 1 ≤ parts.length ∧ parts.head? = some "tools" then
        true
      else
        false
    { name := arcname base it.parts, type := TypeFlag.reg,
      mode := if is_executable then 0o755 else 0o644,
      uid := it.uid, gid := it.gid, uname := it.uname, gname := it.gname,
      mtime := it.mtime, size := it.content.length, linkname := "",
      content := it.content }

/-- The synthesized base directory entry (`tar.gettarinfo(source_path,
arcname=base_name)` followed by `base_dir_info.mode = 0o755`): `root`
carries the source directory's own filesystem metadata. -/
def baseDirEntry (base : String) (root : SrcItem) : TarEntry :=
  { name := base, type := TypeFlag.dir, mode := 0o755,
    uid := root.uid, gid := root.gid, uname := root.uname, gname := root.gname,
    mtime := root.mtime, size := 0, linkname := "", content := [] }

/-- The archive `create_tar_with_permissions` writes on the
exception-free path: the base directory entry first, then one entry per
walked item in walk order. -/
def create_tar (base : String) (root : SrcItem) (items : List SrcItem) :
    List TarEntry :=
  baseDirEntry base root :: items.map (buildEntry base)

/-- The state of the source path when the builder runs: absent, present
but not a directory, or a directory whose walk yields `items` (and whose
own metadata is `root`). -/
inductive Source where
  | missing
  | notDir
  | dir (root : SrcItem) (items : List SrcItem)

/-- What a run of `create_tar_with_permissions` leaves behind: its
boolean return value, whether a file exists at the output path
afterwards, and the complete archive when one was fully written. -/
structure BuildResult where
  ok : Bool
  outputExists : Bool
  archive : Option (List TarEntry)
deriving DecidableEq, Repr

/-- `create_tar_with_permissions(source_dir, output_tar)` from
create_tar.py.  A missing source or a non-directory source is reported
and the function returns `False` before the output file is opened.
Otherwise `tarfile.open(output_tar, "w:gz")` creates the output file and
the archive is written; `exc = true` models an exception raised during
writing (after the output file was created), caught by the broad
`except`, leaving a partial output file and returning `False`. -/
def create_tar_with_permissions (src : Source) (exc : Bool) : BuildResult :=
  match src with
  | Source.missing => { ok := false, outputExists := false, archive := none }
  | Source.notDir => { ok := false, outputExists := false, archive := none }
  | Source.dir root items =>
      if exc then
        { ok := false, outputExists := true, archive := none }
      else
        { ok := true, outputExists := true,
          archive := some (create_tar "go" root items) }

/-- `main()` from create_tar.py: `argc` is `len(sys.argv)` (program name
included).  Wrong argument count prints usage and exits 2 before
anything else; otherwise the exit code is 0 when
`create_tar_with_permissions` returned `True` and 1 when it returned
`False`.  The second component records whether a file exists at the
output path when the process exits. -/
def create_tar_main (argc : Nat) (src : Source) (exc : Bool) : Nat × Bool :=
  if argc ≠ 3 then
    (2, false)
  else
    let r := create_tar_with_permissions src exc
    (if r.ok then 0 else 1, r.outputExists)

end CreateTar

namespace FixTarExecs

theorem fix_tar_foldl_append (members : List TarEntry) (dst : List TarEntry) :
    members.foldl (fun acc member => acc ++ [fixEntry member]) dst
      = dst ++ members.map fixEntry := by
  induction members generalizing dst with
  | nil => simp
  | cons m rest ih => simp [ih]

theorem fix_tar_eq_map (members : List TarEntry) :
    fix_tar members = members.map fixEntry := by
  simpa using fix_tar_foldl_append members []

theorem fixLoop_tmp (members : List TarEntry) (fs : FixFS) (l : List TarEntry)
    (h : fs.tmp = some l) :
    (fixLoop fs members).original = fs.original ∧
    (fixLoop fs members).tmp = some (l ++ members.map fixEntry) := by
  induction members generalizing fs l with
  | nil => simp [fixLoop, h]
  | cons m rest ih =>
      have h2 := ih (writeTmp fs (fixEntry m)) (l ++ [fixEntry m])
        (by simp [writeTmp, h])
      simpa [fixLoop, writeTmp, List.foldl_cons] using h2

theorem fixEntry_name (member : TarEntry) :
    (fixEntry member).name = member.name := by
  unfold fixEntry
  split_ifs <;> rfl

theorem fixEntry_type (member : TarEntry) :
    (fixEntry member).type = member.type := by
  unfold fixEntry
  split_ifs <;> rfl

theorem fixEntry_uid (member : TarEntry) :
    (fixEntry member).uid = member.uid := by
  unfold fixEntry
  split_ifs <;> rfl

theorem fixEntry_gid (member : TarEntry) :
    (fixEntry member).gid = member.gid := by
  unfold fixEntry
  split_ifs <;> rfl

theorem fixEntry_uname (member : TarEntry) :
    (fixEntry member).uname = member.uname := by
  unfold fixEntry
  split_ifs <;> rfl

theorem fixEntry_gname (member : TarEntry) :
    (fixEntry member).gname = member.gname := by
  unfold fixEntry
  split_ifs <;> rfl

theorem fixEntry_mtime (member : TarEntry) :
    (fixEntry member).mtime = member.mtime := by
  unfold fixEntry
  split_ifs <;> rfl

theorem fixEntry_linkname (member : TarEntry) :
    (fixEntry member).linkname = "" := by
  unfold fixEntry
  split_ifs <;> rfl

theorem fixEntry_size (member : TarEntry) :
    (fixEntry member).size = 0 := by
  unfold fixEntry
  split_ifs <;> rfl

theorem fixEntry_mode_dir (member : TarEntry) (h : member.type = TypeFlag.dir) :
    (fixEntry member).mode = 0o755 := by
  simp [fixEntry, h]

theorem fixEntry_mode_reg (member : TarEntry) (h : member.type = TypeFlag.reg) :
    (fixEntry member).mode =
      if strStartsWith (normalize member.name) "go/bin/" = true
          ∨ strStartsWith (normalize member.name) "go/pkg/tool/" = true
      then 0o755 else 0o644 := by
  simp [fixEntry, h, Bool.or_eq_true]

theorem fixEntry_mode_other (member : TarEntry)
    (h : member.type = TypeFlag.other) :
    (fixEntry member).mode = if member.mode = 0 then 0o644 else member.mode := by
  simp [fixEntry, h]

theorem fixEntry_content_other (member : TarEntry)
    (h : member.type = TypeFlag.other) :
    (fixEntry member).content = [] := by
  simp [fixEntry, h]

theorem fixEntry_mode_idem (member : TarEntry) :
    (fixEntry (fixEntry member)).mode = (fixEntry member).mode := by
  cases htype : member.type with
  | dir =>
      rw [fixEntry_mode_dir _ (by rw [fixEntry_type, htype]),
        fixEntry_mode_dir _ htype]
  | reg =>
      rw [fixEntry_mode_reg _ (by rw [fixEntry_type, htype]),
        fixEntry_mode_reg _ htype, fixEntry_name]
  | other =>
      rw [fixEntry_mode_other _ (by rw [fixEntry_type, htype]),
        fixEntry_mode_other _ htype]
      split_ifs with h1 h2 <;> omega

theorem map_getD_of_lt {α β : Type} [Inhabited α] [Inhabited β]
    (f : α → β) (l : List α) (i : Nat) (hi : i < l.length) :
    (l.map f).getD i default = f (l.getD i default) := by
  induction l generalizing i with
  | nil => simp at hi
  | cons x xs ih =>
      cases i with
      | zero => simp
      | succ n => simpa using ih n (by simpa using hi)

end FixTarExecs

/-- C1: the fixer is claimed to copy every regular file's content
unchanged; in fact the replacement `TarInfo` never receives the member's
`size`, so `addfile` writes a zero-size entry and all content is
dropped.  Evaluated here at a one-file archive whose regular member has
two bytes of content: the rewritten entry has size 0 and empty content. -/
theorem fixer_drops_regular_file_content :
    (FixTarExecs.fix_tar
        [{ name := "go/src/a.go", type := TypeFlag.reg, mode := 0o644,
           size := 2, content := [104, 105] }])
      = [{ name := "go/src/a.go", type := TypeFlag.reg, mode := 0o644,
           size := 0, content := [] }] ∧
    ([104, 105] : List Nat) ≠ [] := by
  constructor
  · decide
  · decide

/-- C3: for every entry of the input archive, the fixer assigns mode
0o755 to directory entries, mode 0o755 to regular files whose name
(after stripping a leading "./") starts with "go/bin/" or
"go/pkg/tool/", and mode 0o644 to all other regular files. -/
theorem fixer_mode_rule (input : List TarEntry) (i : Nat)
    (hi : i < input.length) :
    ((input.getD i default).type = TypeFlag.dir →
        ((FixTarExecs.fix_tar input).getD i default).mode = 0o755) ∧
    ((input.getD i default).type = TypeFlag.reg →
        ((FixTarExecs.fix_tar input).getD i default).mode =
          if strStartsWith
                (FixTarExecs.normalize (input.getD i default).name)
                "go/bin/" = true
              ∨ strStartsWith
                  (FixTarExecs.normalize (input.getD i default).name)
                  "go/pkg/tool/" = true
          then 0o755 else 0o644) := by
  have hmap : (FixTarExecs.fix_tar input).getD i default
      = FixTarExecs.fixEntry (input.getD i default) := by
    rw [FixTarExecs.fix_tar_eq_map]
    exact FixTarExecs.map_getD_of_lt _ _ _ hi
  refine ⟨fun h => ?_, fun h => ?_⟩
  · rw [hmap, FixTarExecs.fixEntry_mode_dir _ h]
  · rw [hmap, FixTarExecs.fixEntry_mode_reg _ h]

/-- C3 witness: a concrete regular member named "./go/bin/go" receives
mode 0o755 (the "./" prefix is stripped before classification). -/
theorem fixer_mode_rule_witness :
    ((FixTarExecs.fix_tar
        [{ name := "./go/bin/go", type := TypeFlag.reg, mode := 0o600 }]).getD
      0 default).mode = 0o755 := by
  have h := (fixer_mode_rule
    [{ name := "./go/bin/go", type := TypeFlag.reg, mode := 0o600 }]
    0 (by decide)).2 rfl
  rw [h]
  decide

/-- C4: the fixer writes each output entry under the original member
name unchanged; the "./"-stripping normalization influences only the
classification decision (a member named "./go/bin/go" keeps its "./"
name in the output yet is classified as an executable). -/
theorem fixer_preserves_names (input : List TarEntry) :
    (FixTarExecs.fix_tar input).map TarEntry.name = input.map TarEntry.name ∧
    (∀ member : TarEntry,
        (FixTarExecs.fixEntry member).name = member.name) ∧
    (FixTarExecs.fixEntry
        { name := "./go/bin/go", type := TypeFlag.reg,
          mode := 0o644 }).name = "./go/bin/go" ∧
    (FixTarExecs.fixEntry
        { name := "./go/bin/go", type := TypeFlag.reg,
          mode := 0o644 }).mode = 0o755 := by
  refine ⟨?_, FixTarExecs.fixEntry_name, by decide, by decide⟩
  rw [FixTarExecs.fix_tar_eq_map, List.map_map]
  exact List.map_congr_left fun member _ => FixTarExecs.fixEntry_name member

/-- C5 counterexample: a non-regular, non-directory member whose mode is
0 and which carries one data byte.  The claim says its mode is preserved
and its content copied through unchanged; the code maps mode 0 to 0o644
(Python's `or` fallback) and writes no data (the size field is never
copied). -/
theorem fixer_other_mode_not_preserved :
    (FixTarExecs.fixEntry
        { name := "go/misc/odd", type := TypeFlag.other, mode := 0,
          size := 1, content := [7] }).mode ≠
      (TarEntry.mode
        { name := "go/misc/odd", type := TypeFlag.other, mode := 0,
          size := 1, content := [7] }) ∧
    (FixTarExecs.fixEntry
        { name := "go/misc/odd", type := TypeFlag.other, mode := 0,
          size := 1, content := [7] }).mode = 0o644 ∧
    (FixTarExecs.fixEntry
        { name := "go/misc/odd", type := TypeFlag.other, mode := 0,
          size := 1, content := [7] }).content ≠ [7] := by
  refine ⟨by decide, by decide, by decide⟩

/-- C5 amended: for every member that is neither a regular file nor a
directory, the fixer assigns the original mode when it is nonzero and
0o644 when the original mode is 0, and writes the entry with size 0 and
no data bytes. -/
theorem fixer_other_mode_rule (member : TarEntry)
    (h : member.type = TypeFlag.other) :
    (FixTarExecs.fixEntry member).mode
        = (if member.mode = 0 then 0o644 else member.mode) ∧
    (FixTarExecs.fixEntry member).size = 0 ∧
    (FixTarExecs.fixEntry member).content = [] :=
  ⟨FixTarExecs.fixEntry_mode_other member h, FixTarExecs.fixEntry_size member,
    FixTarExecs.fixEntry_content_other member h⟩

/-- C5 amended witness: a concrete symlink-like member with nonzero mode
0o777 keeps that mode; one with mode 0 gets 0o644. -/
theorem fixer_other_mode_rule_witness :
    (TarEntry.type
        { name := "go/misc/lnk", type := TypeFlag.other, mode := 0o777 })
      = TypeFlag.other ∧
    (FixTarExecs.fixEntry
        { name := "go/misc/lnk", type := TypeFlag.other,
          mode := 0o777 }).mode = 0o777 := by
  refine ⟨rfl, ?_⟩
  have h := (fixer_other_mode_rule
    { name := "go/misc/lnk", type := TypeFlag.other, mode := 0o777 } rfl).1
  rw [h]
  decide

/-- C6: for every entry of every type, the fixer copies uid, gid, uname,
gname and mtime unchanged from the source entry to the output entry. -/
theorem fixer_preserves_ownership_and_mtime (input : List TarEntry) :
    (FixTarExecs.fix_tar input).map TarEntry.uid = input.map TarEntry.uid ∧
    (FixTarExecs.fix_tar input).map TarEntry.gid = input.map TarEntry.gid ∧
    (FixTarExecs.fix_tar input).map TarEntry.uname = input.map TarEntry.uname ∧
    (FixTarExecs.fix_tar input).map TarEntry.gname = input.map TarEntry.gname ∧
    (FixTarExecs.fix_tar input).map TarEntry.mtime = input.map TarEntry.mtime := by
  rw [FixTarExecs.fix_tar_eq_map, List.map_map, List.map_map, List.map_map,
    List.map_map, List.map_map]
  refine ⟨List.map_congr_left fun m _ => FixTarExecs.fixEntry_uid m,
    List.map_congr_left fun m _ => FixTarExecs.fixEntry_gid m,
    List.map_congr_left fun m _ => FixTarExecs.fixEntry_uname m,
    List.map_congr_left fun m _ => FixTarExecs.fixEntry_gname m,
    List.map_congr_left fun m _ => FixTarExecs.fixEntry_mtime m⟩

/-- C7 counterexample: two members that differ only in their prior mode
receive different modes from the fixer, so the assigned mode is not a
function of name and type alone (it depends on the prior mode for
non-regular, non-directory entries). -/
theorem fixer_mode_depends_on_prior_mode :
    (TarEntry.name
        { name := "go/misc/dev", type := TypeFlag.other, mode := 0o600 })
      = (TarEntry.name
          { name := "go/misc/dev", type := TypeFlag.other, mode := 0o700 }) ∧
    (TarEntry.type
        { name := "go/misc/dev", type := TypeFlag.other, mode := 0o600 })
      = (TarEntry.type
          { name := "go/misc/dev", type := TypeFlag.other, mode := 0o700 }) ∧
    (FixTarExecs.fixEntry
        { name := "go/misc/dev", type := TypeFlag.other,
          mode := 0o600 }).mode ≠
      (FixTarExecs.fixEntry
          { name := "go/misc/dev", type := TypeFlag.other,
            mode := 0o700 }).mode := by
  refine ⟨rfl, rfl, by decide⟩

/-- C7 amended: the fixer is idempotent on mode assignments — re-running
it on an already-fixed archive assigns every entry the same mode again.
(For directories and regular files the mode depends only on name and
type; for other entry types it depends on the prior mode, but every mode
the first run assigns is a fixed point of the assignment.) -/
theorem fixer_mode_idempotent (input : List TarEntry) :
    (FixTarExecs.fix_tar (FixTarExecs.fix_tar input)).map TarEntry.mode
      = (FixTarExecs.fix_tar input).map TarEntry.mode := by
  simp only [FixTarExecs.fix_tar_eq_map, List.map_map, Function.comp]
  exact List.map_congr_left fun m _ => FixTarExecs.fixEntry_mode_idem m

namespace CreateTar

theorem one_le_length_of_head?_eq_some {α : Type} {l : List α} {a : α}
    (h : l.head? = some a) : 1 ≤ l.length := by
  cases l with
  | nil => simp at h
  | cons x xs => exact Nat.succ_le_succ (Nat.zero_le _)

theorem exec_chain_iff (parts : List String) :
    ((if 2 ≤ parts.length ∧ parts.head? = some "bin" then (true : Bool)
      else if 3 ≤ parts.length ∧ parts.head? = some "pkg"
              ∧ parts[1]? = some "tool" then true
      else if 1 ≤ parts.length ∧ parts.head? = some "tools" then true
      else false) = true)
    ↔ ((parts.head? = some "bin" ∧ 2 ≤ parts.length)
        ∨ (parts.head? = some "pkg" ∧ parts[1]? = some "tool"
             ∧ 3 ≤ parts.length)
        ∨ parts.head? = some "tools") := by
  split_ifs with h1 h2 h3
  · simp only [true_iff]
    exact Or.inl ⟨h1.2, h1.1⟩
  · simp only [true_iff]
    exact Or.inr (Or.inl ⟨h2.2.1, h2.2.2, h2.1⟩)
  · simp only [true_iff]
    exact Or.inr (Or.inr h3.2)
  · simp only [Bool.false_eq_true, false_iff]
    rintro (⟨hb, hl⟩ | ⟨hp, ht, hl⟩ | hts)
    · exact h1 ⟨hl, hb⟩
    · exact h2 ⟨hl, hp, ht⟩
    · exact h3 ⟨one_le_length_of_head?_eq_some hts, hts⟩

theorem buildEntry_type_file (base : String) (it : SrcItem)
    (h : it.isDir = false) :
    (buildEntry base it).type = TypeFlag.reg := by
  simp [buildEntry, h]

theorem buildEntry_mode_file (base : String) (it : SrcItem)
    (h : it.isDir = false) :
    (buildEntry base it).mode =
      if (it.parts.head? = some "bin" ∧ 2 ≤ it.parts.length)
          ∨ (it.parts.head? = some "pkg" ∧ it.parts[1]? = some "tool"
               ∧ 3 ≤ it.parts.length)
          ∨ it.parts.head? = some "tools"
      then 0o755 else 0o644 := by
  unfold buildEntry
  rw [if_neg (by simp [h])]
  exact if_congr (exec_chain_iff it.parts) rfl rfl

theorem buildEntry_mode_dir (base : String) (it : SrcItem)
    (h : it.isDir = true) :
    (buildEntry base it).mode = 0o755 := by
  simp [buildEntry, h]

end CreateTar

/-- C2: every directory entry the builder writes, the synthesized base
entry included, gets mode 0o755 regardless of source permissions; a
regular file gets mode 0o755 exactly when its relative path has first
segment "bin" with at least 2 segments, or first segments "pkg","tool"
with at least 3 segments, or first segment "tools"; all other regular
files get mode 0o644. -/
theorem builder_mode_rule (base : String) (root : CreateTar.SrcItem)
    (items : List CreateTar.SrcItem) :
    (∀ e ∈ CreateTar.create_tar base root items,
        e.type = TypeFlag.dir → e.mode = 0o755) ∧
    (∀ it ∈ items, it.isDir = false →
        (CreateTar.buildEntry base it).type = TypeFlag.reg ∧
        (CreateTar.buildEntry base it).mode =
          (if (it.parts.head? = some "bin" ∧ 2 ≤ it.parts.length)
              ∨ (it.parts.head? = some "pkg" ∧ it.parts[1]? = some "tool"
                   ∧ 3 ≤ it.parts.length)
              ∨ it.parts.head? = some "tools"
           then 0o755 else 0o644)) := by
  constructor
  · intro e he _ht
    rcases List.mem_cons.mp he with h | h
    · subst h
      rfl
    · rcases List.mem_map.mp h with ⟨it, _, rfl⟩
      cases hd : it.isDir with
      | true => exact CreateTar.buildEntry_mode_dir base it hd
      | false =>
          rw [CreateTar.buildEntry_type_file base it hd] at _ht
          exact absurd _ht (by decide)
  · intro it _ hdir
    exact ⟨CreateTar.buildEntry_type_file base it hdir,
      CreateTar.buildEntry_mode_file base it hdir⟩

/-- C2 witness: a regular file "bin/gofmt" gets mode 0o755; the
synthesized base directory entry gets mode 0o755 even when the source
directory's own mode is 0o700. -/
theorem builder_mode_rule_witness :
    ({ parts := ["bin", "gofmt"], isDir := false, mode := 0o600 } :
        CreateTar.SrcItem).isDir = false ∧
    (CreateTar.buildEntry "go"
        { parts := ["bin", "gofmt"], isDir := false, mode := 0o600 }).mode
      = 0o755 ∧
    (CreateTar.baseDirEntry "go"
        { parts := [], isDir := true, mode := 0o700 }).mode = 0o755 := by
  refine ⟨rfl, ?_, ?_⟩
  · have h := ((builder_mode_rule "go"
      { parts := [], isDir := true, mode := 0o700 }
      [{ parts := ["bin", "gofmt"], isDir := false, mode := 0o600 }]).2
      { parts := ["bin", "gofmt"], isDir := false, mode := 0o600 }
      (by simp) rfl).2
    rw [h]
    decide
  · exact (builder_mode_rule "go" { parts := [], isDir := true, mode := 0o700 }
      []).1 (CreateTar.baseDirEntry "go"
        { parts := [], isDir := true, mode := 0o700 })
      (by simp [CreateTar.create_tar]) rfl

/-- C8: if the fixer raises an exception at any point mid-stream (after
any number `k` of members have been rewritten to the temporary file),
the original archive is left exactly as it was and the temporary file is
removed; the original is replaced, by the fully rewritten archive, only
on the exception-free run. -/
theorem fixer_failure_leaves_original (fs0 : FixTarExecs.FixFS) (k : Nat) :
    ((FixTarExecs.fix_tar_run fs0 (some k)).1.original = fs0.original ∧
     (FixTarExecs.fix_tar_run fs0 (some k)).1.tmp = none ∧
     (FixTarExecs.fix_tar_run fs0 (some k)).2 = false) ∧
    ((FixTarExecs.fix_tar_run fs0 none).1.original
        = FixTarExecs.fix_tar fs0.original ∧
     (FixTarExecs.fix_tar_run fs0 none).1.tmp = none) := by
  have hfail := FixTarExecs.fixLoop_tmp (fs0.original.take k)
    { fs0 with tmp := some [] } [] rfl
  have hok := FixTarExecs.fixLoop_tmp fs0.original
    { fs0 with tmp := some [] } [] rfl
  refine ⟨⟨?_, rfl, rfl⟩, ?_, rfl⟩
  · simpa [FixTarExecs.fix_tar_run] using hfail.1
  · simp [FixTarExecs.fix_tar_run, hok.2, FixTarExecs.fix_tar_eq_map]

/-- C9: the builder's command-line entry point exits 2 (creating no
output) on a wrong argument count, exits 1 and creates no output file
when the source path is missing or is not a directory, and exits 0 on an
exception-free run over a directory. -/
theorem builder_exit_codes (argc : Nat) (src : CreateTar.Source)
    (exc : Bool) :
    (argc ≠ 3 → CreateTar.create_tar_main argc src exc = (2, false)) ∧
    (argc = 3 →
      (src = CreateTar.Source.missing ∨ src = CreateTar.Source.notDir) →
      CreateTar.create_tar_main argc src exc = (1, false)) ∧
    (argc = 3 → exc = false →
      ∀ (root : CreateTar.SrcItem) (items : List CreateTar.SrcItem),
        src = CreateTar.Source.dir root items →
        (CreateTar.create_tar_main argc src exc).1 = 0) := by
  refine ⟨fun h => by simp [CreateTar.create_tar_main, h],
    fun h hsrc => ?_, fun h hexc root items hsrc => ?_⟩
  · subst h
    rcases hsrc with h2 | h2 <;> subst h2 <;>
      simp [CreateTar.create_tar_main, CreateTar.create_tar_with_permissions]
  · subst h
    subst hexc
    subst hsrc
    simp [CreateTar.create_tar_main, CreateTar.create_tar_with_permissions]

/-- C9 witness: one argument too few exits 2; a missing source exits 1
with no output file; a successful run over an (empty) directory
exits 0. -/
theorem builder_exit_codes_witness :
    CreateTar.create_tar_main 2 CreateTar.Source.missing false = (2, false) ∧
    CreateTar.create_tar_main 3 CreateTar.Source.missing false = (1, false) ∧
    (CreateTar.create_tar_main 3
        (CreateTar.Source.dir { parts := [], isDir := true, mode := 0o700 } [])
        false).1 = 0 :=
  ⟨(builder_exit_codes 2 CreateTar.Source.missing false).1 (by decide),
   (builder_exit_codes 3 CreateTar.Source.missing false).2.1 rfl (Or.inl rfl),
   (builder_exit_codes 3
      (CreateTar.Source.dir { parts := [], isDir := true, mode := 0o700 } [])
      false).2.2 rfl rfl _ _ rfl⟩

/-- C10: for every member that is neither a regular file nor a
directory, the fixer's output entry has an empty linkname and size 0,
whatever the source member's link target and size were: neither field is
among those copied into the replacement descriptor. -/
theorem fixer_other_clears_linkname_and_size (member : TarEntry)
    (_h : member.type = TypeFlag.other) :
    (FixTarExecs.fixEntry member).linkname = "" ∧
    (FixTarExecs.fixEntry member).size = 0 :=
  ⟨FixTarExecs.fixEntry_linkname member, FixTarExecs.fixEntry_size member⟩

/-- C10 witness: a concrete symlink member with a nonempty link target
and nonzero size comes out with empty linkname and size 0. -/
theorem fixer_other_clears_linkname_and_size_witness :
    (TarEntry.type
        { name := "go/bin/go", type := TypeFlag.other, mode := 0o777,
          linkname := "/usr/local/go/bin/gofmt", size := 9 })
      = TypeFlag.other ∧
    (FixTarExecs.fixEntry
        { name := "go/bin/go", type := TypeFlag.other, mode := 0o777,
          linkname := "/usr/local/go/bin/gofmt", size := 9 }).linkname = "" ∧
    (FixTarExecs.fixEntry
        { name := "go/bin/go", type := TypeFlag.other, mode := 0o777,
          linkname := "/usr/local/go/bin/gofmt", size := 9 }).size = 0 :=
  ⟨rfl,
   (fixer_other_clears_linkname_and_size
      { name := "go/bin/go", type := TypeFlag.other, mode := 0o777,
        linkname := "/usr/local/go/bin/gofmt", size := 9 } rfl).1,
   (fixer_other_clears_linkname_and_size
      { name := "go/bin/go", type := TypeFlag.other, mode := 0o777,
        linkname := "/usr/local/go/bin/gofmt", size := 9 } rfl).2⟩
